import Mathlib

/-
Verification development for the sacpy cross-correlation stacking pipeline
(`bin/cc_stack_sac.py` and `geomath.py`).

Floating-point values are modelled in exact arithmetic: rational numbers ℚ
where only field operations and comparisons occur, and real numbers ℝ where
the code uses transcendental functions (trigonometry in `geomath.py`).
`complex64` spectra are modelled as exact complex numbers with rational
components.  Python/numpy helpers used by the source (float `%`, `np.round`,
`np.arange` with its default step, `np.argmax`/`np.argmin` on boolean arrays,
negative list indexing) are modelled by their documented semantics.
-/

/-- Exact model of a `complex64` value: a complex number with rational
real and imaginary parts. -/
structure Cplx where
  re : ℚ
  im : ℚ
deriving DecidableEq, Repr

def Cplx.zero : Cplx := ⟨0, 0⟩

def Cplx.add (a b : Cplx) : Cplx := ⟨a.re + b.re, a.im + b.im⟩

def Cplx.mul (a b : Cplx) : Cplx := ⟨a.re * b.re - a.im * b.im, a.re * b.im + a.im * b.re⟩

/-- Complex conjugation, `np.conj`. -/
def Cplx.conj (a : Cplx) : Cplx := ⟨a.re, -a.im⟩

/-- Python float modulo on rationals: `a % b = a - b*floor(a/b)`, whose result
has the sign of the divisor.  Used for `(az1-az2) % 360.0`. -/
def qmod (a b : ℚ) : ℚ := a - b * ((Int.floor (a / b) : ℤ) : ℚ)

/-- The folded azimuth difference of `ccstack_selection_ev`
(`bin/cc_stack_sac.py` lines 512-516):
`daz = (az1-az2) % 360.0`; `if daz > 180.0: daz = 360.0-daz`;
`if daz > 90.0: daz = 90.0-daz`. -/
def foldedDaz (az1 az2 : ℚ) : ℚ :=
  let daz0 := qmod (az1 - az2) 360
  let daz1 := if 180 < daz0 then 360 - daz0 else daz0
  if 90 < daz1 then 90 - daz1 else daz1

/-- One entry of `gc_center_rect`: a rectangle `(lo1, lo2, la1, la2)`. -/
structure Rect where
  lo1 : ℚ
  lo2 : ℚ
  la1 : ℚ
  la2 : ℚ
deriving DecidableEq, Repr

/-- The rectangle-rejection flag computed by `ccstack_selection_ev`
(`bin/cc_stack_sac.py` lines 482-509) as a function of the flipped
great-circle-plane center `(x, y)` and the configured rectangles.
`flag` starts at `0` and is set to `1` (never reset) whenever `(x, y)`
fails the test of the current rectangle; the pair is rejected when the
final flag is `1` (here `true`). -/
def rectRejectFlag (rects : List Rect) (x y : ℚ) : Bool :=
  rects.foldl
    (fun flag r =>
      if r.lo1 < r.lo2 then
        if x < r.lo1 ∨ r.lo2 < x ∨ y < r.la1 ∨ r.la2 < y then true else flag
      else
        if r.lo1 < x ∨ x < r.lo2 ∨ y < r.la1 ∨ r.la2 < y then true else flag)
    false

/-- Acceptance by one rectangle as the spec sentence behind claim C1 words it:
if `lo1 < lo2` accept when `lo1 ≤ x ≤ lo2`; otherwise accept the wrap-around
arc `x ≥ lo1 or x ≤ lo2`; latitude always `la1 ≤ y ≤ la2`. -/
def rectAcceptSpec (r : Rect) (x y : ℚ) : Bool :=
  if r.lo1 < r.lo2 then
    decide (r.lo1 ≤ x ∧ x ≤ r.lo2 ∧ r.la1 ≤ y ∧ y ≤ r.la2)
  else
    decide ((r.lo1 ≤ x ∨ x ≤ r.lo2) ∧ r.la1 ≤ y ∧ y ≤ r.la2)

/-- Acceptance by one rectangle as the code actually tests it: the negation of
the per-rectangle failure condition of lines 488-495 / 501-508.  In the
`lo1 ≥ lo2` branch the code keeps `(x, y)` only when `lo2 ≤ x ≤ lo1`. -/
def rectAcceptCode (r : Rect) (x y : ℚ) : Bool :=
  if r.lo1 < r.lo2 then
    decide (r.lo1 ≤ x ∧ x ≤ r.lo2 ∧ r.la1 ≤ y ∧ y ≤ r.la2)
  else
    decide (r.lo2 ≤ x ∧ x ≤ r.lo1 ∧ r.la1 ≤ y ∧ y ≤ r.la2)

/-- Elementwise product of two equal-length vectors (`row *= w`). -/
def pmul (w row : List ℚ) : List ℚ := List.zipWith (fun a b => a * b) w row

/-- The post-filter loop of `main` (`bin/cc_stack_sac.py` lines 281-288),
abstracted over the imported zero-phase Butterworth `filter` function `filt`
and with the Tukey window `w = tukey_jit(stack_mat.shape[1], post_taper_ratio)`
passed as a vector: per row, the code runs
`stack_mat[irow] = filter(stack_mat[irow], ...)` and then
`stack_mat[irow] *= w`. -/
def postFilterRows (filt : List ℚ → List ℚ) (w : List ℚ) (rows : List (List ℚ)) :
    List (List ℚ) :=
  rows.map (fun row => pmul (filt row) w)

/-- Model of `np.max` on a nonempty array of rationals. -/
def listMax (l : List ℚ) : ℚ := l.foldl max (l.headD 0)

/-- Model of `np.argmax` of a boolean condition over an array: the index of the
first element satisfying the predicate, or `0` when none does. -/
def npArgmaxWhere (p : ℚ → Bool) (l : List ℚ) : ℕ :=
  let i := l.findIdx p
  if i < l.length then i else 0

/-- Model of `np.argmin` of a boolean condition over an array: the index of the
first element violating the predicate (first `False`), or `0` when all hold. -/
def npArgminWhere (p : ℚ → Bool) (l : List ℚ) : ℕ :=
  let i := l.findIdx (fun a => !(p a))
  if i < l.length then i else 0

/-- The index-selection logic of `get_bound` (`bin/cc_stack_sac.py` lines
427-435), taking the half-spectrum magnitude array `amp = np.abs(s)` as input:
`c = np.max(amp) * critical_level`; `i1 = np.argmax(amp > c)`;
`i2 = np.argmin(amp[i1:] > c) + i1 + 1`; `if i1 < 0: i1 = 0` (dead for the
nonnegative numpy index, kept as a comment); `if i2 >= fftsize: i2 = fftsize`. -/
def get_bound_core (amp : List ℚ) (fftsize : ℕ) (critical_level : ℚ) : ℕ × ℕ :=
  let c := listMax amp * critical_level
  let i1 := npArgmaxWhere (fun a => decide (c < a)) amp
  let i2a := npArgminWhere (fun a => decide (c < a)) (amp.drop i1) + i1 + 1
  let i2 := if fftsize ≤ i2a then fftsize else i2a
  (i1, i2)

/-- Length of `np.arange(start, stop)` with the default step `1`:
`ceil(stop - start)` clamped at zero. -/
def arangeLen (start stop : ℚ) : ℕ := (Int.ceil (stop - start)).toNat

/-- Model of `np.arange(start, stop)` with the default step `1`:
the values `start, start+1, ...` below `stop`. -/
def arange (start stop : ℚ) : List ℚ :=
  (List.range (arangeLen start stop)).map (fun i : ℕ => start + (i : ℚ))

/-- The distance-bin list of `main` (`bin/cc_stack_sac.py` line 170):
`dist = np.arange(dist_range[0], dist_range[1] + dist_step)` — note the
source omits the step argument, so numpy uses step `1`.  `spec_stack_mat`
and `stack_count` are allocated with `dist.size` rows/entries
(lines 172-173). -/
def distList (dmin dmax dstep : ℚ) : List ℚ := arange dmin (dmax + dstep)

/-- The MPI sum-reduction of the per-worker `stack_count` vectors
(`bin/cc_stack_sac.py` line 255): elementwise integer sum over all ranks,
received by rank 0 into `global_stack_count`. -/
def globalReduce (locals : List (List ℤ)) : List ℤ :=
  match locals with
  | [] => []
  | c :: rest => rest.foldl (fun acc l => List.zipWith (fun a b => a + b) acc l) c

/-- The pair count written into the SAC header slot (`user3`) for bin `irow`
(`bin/cc_stack_sac.py` line 333): rank 0 reads its own local `stack_count`,
not `global_stack_count`. -/
def sacUser3 (rank0_stack_count : List ℤ) (irow : ℕ) : ℤ :=
  rank0_stack_count.getD irow 0

/-- Degree-to-radian conversion, `math.radians` / the `radians` calls in
`geomath.py`. -/
noncomputable def radians (x : ℝ) : ℝ := x * (Real.pi / 180)

/-- Radian-to-degree conversion, `np.rad2deg`. -/
noncomputable def rad2deg (x : ℝ) : ℝ := x * (180 / Real.pi)

/-- Python float modulo on reals (used for `np.rad2deg(a) % 360.0`). -/
noncomputable def fmod (a b : ℝ) : ℝ := a - b * ((Int.floor (a / b) : ℤ) : ℝ)

/-- `np.arctan2 y x`, modelled by the complex argument of `x + i y`
(range `(-π, π]`, `arctan2 0 0 = 0`). -/
noncomputable def arctan2 (y x : ℝ) : ℝ := Complex.arg ⟨x, y⟩

/-- The intermediate `a` of `geomath.haversine` (`geomath.py` lines 50-56):
`a = sin(dlat/2)^2 + cos(lat1)*cos(lat2)*sin(dlon/2)^2` after converting the
four inputs to radians. -/
noncomputable def haversine_a (lon1 lat1 lon2 lat2 : ℝ) : ℝ :=
  let rlon1 := radians lon1
  let rlat1 := radians lat1
  let rlon2 := radians lon2
  let rlat2 := radians lat2
  let dlon := rlon2 - rlon1
  let dlat := rlat2 - rlat1
  let s1 := Real.sin (dlat * 0.5)
  let s2 := Real.sin (dlon * 0.5)
  s1 * s1 + Real.cos rlat1 * Real.cos rlat2 * s2 * s2

/-- `geomath.haversine` (`geomath.py` lines 44-58): the great-circle distance
in degrees, `rad2deg(2*arcsin(sqrt(a)))`. -/
noncomputable def haversine (lon1 lat1 lon2 lat2 : ℝ) : ℝ :=
  rad2deg (2.0 * Real.arcsin (Real.sqrt (haversine_a lon1 lat1 lon2 lat2)))

/-- Numerator (`y` argument) of the `arctan2` inside `geomath.azimuth`:
`cos(phi2) * sin(dlamda)`. -/
noncomputable def azY (evlo evla stlo stla : ℝ) : ℝ :=
  Real.cos (radians stla) * Real.sin (radians (stlo - evlo))

/-- Denominator (`x` argument) of the `arctan2` inside `geomath.azimuth`:
`cos(phi1)*sin(phi2) - sin(phi1)*cos(phi2)*cos(dlamda)`. -/
noncomputable def azX (evlo evla stlo stla : ℝ) : ℝ :=
  Real.cos (radians evla) * Real.sin (radians stla) -
    Real.sin (radians evla) * Real.cos (radians stla) * Real.cos (radians (stlo - evlo))

/-- `geomath.azimuth` (`geomath.py` lines 60-68): the initial bearing in
degrees, `rad2deg(arctan2(...)) % 360.0`. -/
noncomputable def azimuth (evlo evla stlo stla : ℝ) : ℝ :=
  fmod (rad2deg (arctan2 (azY evlo evla stlo stla) (azX evlo evla stlo stla))) 360.0

/-- The spherical dot product of the unit vectors of two (lon, lat) points:
`sin(la1)sin(la2) + cos(la1)cos(la2)cos(lo2-lo1)` (in radians).  Not part of
the source; used to state and prove its trigonometric identities. -/
noncomputable def dotD (lo1 la1 lo2 la2 : ℝ) : ℝ :=
  Real.sin (radians la1) * Real.sin (radians la2) +
    Real.cos (radians la1) * Real.cos (radians la2) * Real.cos (radians (lo2 - lo1))

/-- `geomath.point_distance_to_great_circle_plane` (`geomath.py` lines 70-89):
signed angular distance (degrees) from `(ptlon, ptlat)` to the great circle
through `(lon1, lat1)` and `(lon2, lat2)`, via
`asin(sin(d13) * sin(a13 - a12))`; returns `0.0` when the two defining points
coincide within `1.0e-4` in both coordinates. -/
noncomputable def point_distance_to_great_circle_plane
    (ptlon ptlat lon1 lat1 lon2 lat2 : ℝ) : ℝ :=
  if |lon1 - lon2| < 1 / 10000 ∧ |lat1 - lat2| < 1 / 10000 then 0.0
  else
    let d13 := radians (haversine lon1 lat1 ptlon ptlat)
    let a13 := radians (azimuth lon1 lat1 ptlon ptlat)
    let a12 := radians (azimuth lon1 lat1 lon2 lat2)
    rad2deg (Real.arcsin (Real.sin d13 * Real.sin (a13 - a12)))

/-- `np.round`: round half to even (banker's rounding) to an integer. -/
noncomputable def np_round (x : ℝ) : ℤ :=
  if Int.fract x = 1 / 2 then
    (if Int.floor x % 2 = 0 then Int.floor x else Int.floor x + 1)
  else round x

/-- Python list indexing of a list of length `n` with a possibly negative
integer index: `-n ≤ i < 0` wraps to `n + i`; out of range raises
(modelled as `none`). -/
def pyIdx (n : ℕ) (i : ℤ) : Option ℕ :=
  if 0 ≤ i ∧ i < (n : ℤ) then some i.toNat
  else if -(n : ℤ) ≤ i ∧ i < 0 then some ((n : ℤ) + i).toNat
  else none

/-- One trace of a group as consumed by `ccstack`: its station coordinates
`stlo_lst[i], stla_lst[i]` and its truncated half-spectrum row `spec_mat[i]`. -/
structure Trace where
  lo : ℝ
  la : ℝ
  spec : List Cplx

/-- `stack_mat[idx][i1:i2] += np.conj(spec1[i1:i2]) * spec2[i1:i2]` on one row:
positions `k ∈ [i1, i2)` (clipped to the spectra lengths, as numpy slices
clip) are incremented by `conj(spec1[k]) * spec2[k]`. -/
def sliceAdd (row spec1 spec2 : List Cplx) (i1 i2 : ℕ) : List Cplx :=
  row.mapIdx (fun k z =>
    if i1 ≤ k ∧ k < i2 ∧ k < spec1.length ∧ k < spec2.length then
      Cplx.add z (Cplx.mul (Cplx.conj (spec1.getD k Cplx.zero)) (spec2.getD k Cplx.zero))
    else z)

/-- The body of the double loop of `ccstack` (`bin/cc_stack_sac.py` lines
450-456) for the pair `(t1, t2)`: compute the haversine distance, the rounded
bin index `idx` (with no range check), and update `stack_mat[idx]`,
`stack_count[idx]` and `count` in the running state; Python negative indexing
applies, and an out-of-range index is an error (`none`). -/
noncomputable def ccstackPairStep (dist_step dist_start : ℝ) (i1 i2 : ℕ)
    (t1 t2 : Trace) (st : List (List Cplx) × List ℤ × ℕ) :
    Option (List (List Cplx) × List ℤ × ℕ) :=
  let mat := st.1
  let cnt := st.2.1
  let count := st.2.2
  let dist := haversine t1.lo t1.la t2.lo t2.la
  let idx := np_round ((dist - dist_start) / dist_step)
  match pyIdx mat.length idx, pyIdx cnt.length idx with
  | some r, some c =>
      some (mat.set r (sliceAdd (mat.getD r []) t1.spec t2.spec i1 i2),
            cnt.set c (cnt.getD c 0 + 1),
            count + 1)
  | _, _ => none

/-- The iteration order of the double loop of `ccstack`: all pairs `(i, j)`
with `0 ≤ i ≤ j < n`, outer index first. -/
def pairList (n : ℕ) : List (ℕ × ℕ) :=
  (List.range n).flatMap (fun i => ((List.range n).drop i).map (fun j => (i, j)))

/-- `ccstack` (`bin/cc_stack_sac.py` lines 437-457) with selection disabled:
fold the pair step over every pair `0 ≤ isac1 ≤ isac2 < nsac`, starting from
the incoming `stack_mat` and `stack_count` and a zero pair counter; the
result bundles the mutated matrix, counts, and the returned `count`. -/
noncomputable def ccstack (traces : List Trace) (cnt : List ℤ)
    (mat : List (List Cplx)) (dist_step : ℝ) (i1 i2 : ℕ) (dist_start : ℝ) :
    Option (List (List Cplx) × List ℤ × ℕ) :=
  (pairList traces.length).foldlM
    (fun st p =>
      match traces.get? p.1, traces.get? p.2 with
      | some u, some v => ccstackPairStep dist_step dist_start i1 i2 u v st
      | _, _ => none)
    (mat, cnt, 0)

/-
Theorems.  Helper lemmas come first, then one theorem per claim
(with its counterexample / witness where required).
-/

theorem rectStep_true_iff (r : Rect) (x y : ℚ) (flag : Bool) :
    (if r.lo1 < r.lo2 then
        if x < r.lo1 ∨ r.lo2 < x ∨ y < r.la1 ∨ r.la2 < y then true else flag
      else
        if r.lo1 < x ∨ x < r.lo2 ∨ y < r.la1 ∨ r.la2 < y then true else flag) = true
      ↔ (rectAcceptCode r x y = false ∨ flag = true) := by
  unfold rectAcceptCode
  split_ifs with h1 h2 h2 <;>
    simp only [decide_eq_false_iff_not, not_and_or, not_le, true_iff, iff_true] <;>
    tauto

theorem rectFold_true_iff (x y : ℚ) (l : List Rect) (b : Bool) :
    (l.foldl
      (fun flag r =>
        if r.lo1 < r.lo2 then
          if x < r.lo1 ∨ r.lo2 < x ∨ y < r.la1 ∨ r.la2 < y then true else flag
        else
          if r.lo1 < x ∨ x < r.lo2 ∨ y < r.la1 ∨ r.la2 < y then true else flag)
      b) = true
      ↔ (b = true ∨ ∃ r ∈ l, rectAcceptCode r x y = false) := by
  induction l generalizing b with
  | nil => simp
  | cons r t ih =>
      rw [List.foldl_cons, ih, rectStep_true_iff]
      simp only [List.mem_cons]
      constructor
      · rintro (h | ⟨s, hs, h⟩)
        · rcases h with h | h
          · exact Or.inr ⟨r, Or.inl rfl, h⟩
          · exact Or.inl h
        · exact Or.inr ⟨s, Or.inr hs, h⟩
      · rintro (h | ⟨s, hs, h⟩)
        · exact Or.inl (Or.inr h)
        · rcases hs with rfl | hs
          · exact Or.inl (Or.inl h)
          · exact Or.inr ⟨s, hs, h⟩

/-- Claim C1 (corrected): with selection enabled, a pair is rejected by the
rectangle criterion iff its flipped great-circle-plane center `(x, y)` fails
the test of AT LEAST ONE configured rectangle (the `flag` is sticky across
rectangles), where a rectangle with `lo1 < lo2` accepts `lo1 ≤ x ≤ lo2`, a
rectangle with `lo1 ≥ lo2` accepts the interval `lo2 ≤ x ≤ lo1` (not the
wrap-around arc), and the latitude condition `la1 ≤ y ≤ la2` always applies. -/
theorem c1_rect_reject_iff_some_fails (rects : List Rect) (x y : ℚ) :
    rectRejectFlag rects x y = true ↔ ∃ r ∈ rects, rectAcceptCode r x y = false := by
  unfold rectRejectFlag
  rw [rectFold_true_iff]
  simp

/-- Claim C1 counterexample: for the single configured rectangle
`(lo1, lo2, la1, la2) = (350, 10, 0, 10)` (a wrap-around rectangle,
`lo1 ≥ lo2`) and a center `(x, y) = (355, 5)` lying inside it under the
claim's wrap-around-arc interpretation (`x ≥ lo1`), the code still rejects
the pair — contradicting the claim that a pair whose center lies inside at
least one configured rectangle is not rejected. -/
theorem c1_counterexample :
    rectRejectFlag [⟨350, 10, 0, 10⟩] 355 5 = true ∧
      rectAcceptSpec ⟨350, 10, 0, 10⟩ 355 5 = true := by decide

theorem qmod_nonneg (a b : ℚ) (hb : 0 < b) : 0 ≤ qmod a b := by
  unfold qmod
  have h := Int.floor_le (a / b)
  have h2 : b * ((Int.floor (a / b) : ℤ) : ℚ) ≤ b * (a / b) :=
    mul_le_mul_of_nonneg_left h (le_of_lt hb)
  have h3 : b * (a / b) = a := by field_simp
  linarith

theorem qmod_lt (a b : ℚ) (hb : 0 < b) : qmod a b < b := by
  unfold qmod
  have h := Int.lt_floor_add_one (a / b)
  have h2 : b * (a / b) < b * ((Int.floor (a / b) : ℤ) : ℚ) + b := by
    have := mul_lt_mul_of_pos_left h hb
    nlinarith
  have h3 : b * (a / b) = a := by field_simp
  linarith

/-- Claim C2 (corrected): the folded azimuth difference computed by the
selection step lies in `[-90, 90]`, not `[0, 90]`: the second fold replaces a
value `daz ∈ (90, 180]` by `90 - daz ∈ [-90, 0)`. -/
theorem c2_folded_daz_range (az1 az2 : ℚ) :
    -90 ≤ foldedDaz az1 az2 ∧ foldedDaz az1 az2 ≤ 90 := by
  have h1 := qmod_nonneg (az1 - az2) 360 (by norm_num)
  have h2 := qmod_lt (az1 - az2) 360 (by norm_num)
  unfold foldedDaz
  dsimp only
  split_ifs <;> constructor <;> linarith

/-- Claim C2 counterexample: for `az[i] = 100, az[j] = 0` the folded azimuth
difference is `-10`, which does not lie in `[0, 90]`. -/
theorem c2_counterexample :
    foldedDaz 100 0 = -10 ∧ ¬(0 ≤ foldedDaz 100 0 ∧ foldedDaz 100 0 ≤ 90) := by
  have hfl : Int.floor (((100 : ℚ) - 0) / 360) = 0 := by
    rw [Int.floor_eq_iff]
    norm_num
  have hq : qmod (100 - 0) 360 = 100 := by
    unfold qmod
    rw [hfl]
    norm_num
  have hv : foldedDaz 100 0 = -10 := by
    unfold foldedDaz
    rw [hq]
    norm_num
  exact ⟨hv, by rw [hv]; norm_num⟩

/-- Claim C3 (corrected): `Sspec` and `cnt` have `dist.size` rows/entries
where `dist = np.arange(dmin, dmax + Δd)` is generated with the default step
`1` (the source omits the step argument), so the number of bins is
`⌈dmax - dmin + Δd⌉`, not `⌊(dmax - dmin)/Δd⌋ + 1`; the two agree for the
default `Δd = 1` with integral `dmax - dmin`, but not for every `Δd`. -/
theorem c3_bin_count (dmin dmax dstep : ℚ) (h1 : dmin ≤ dmax) (h2 : 0 < dstep) :
    ((distList dmin dmax dstep).length : ℤ) = Int.ceil (dmax - dmin + dstep) := by
  have hlen : (distList dmin dmax dstep).length = (Int.ceil (dmax + dstep - dmin)).toNat := by
    simp [distList, arange, arangeLen]
  rw [hlen]
  have h3 : (0 : ℚ) < dmax + dstep - dmin := by linarith
  have h4 : (0 : ℤ) ≤ Int.ceil (dmax + dstep - dmin) := Int.ceil_nonneg (le_of_lt h3)
  rw [Int.toNat_of_nonneg h4]
  congr 1
  ring

/-- Claim C3 witness: for `dmin = 0, dmax = 10, Δd = 1/2` the stack has
`⌈10 - 0 + 1/2⌉ = 11` rows. -/
theorem c3_witness :
    (0 : ℚ) ≤ 10 ∧ (0 : ℚ) < 1 / 2 ∧
      ((distList 0 10 (1 / 2)).length : ℤ) = Int.ceil ((10 : ℚ) - 0 + 1 / 2) :=
  ⟨by norm_num, by norm_num, c3_bin_count 0 10 (1 / 2) (by norm_num) (by norm_num)⟩

/-- Claim C3 counterexample: for `dmin = 0, dmax = 10, Δd = 1/2` the code
allocates `11` rows while the claim's formula `⌊(dmax - dmin)/Δd⌋ + 1`
gives `21`. -/
theorem c3_counterexample :
    (distList 0 10 (1 / 2)).length = 11 ∧
      Int.floor (((10 : ℚ) - 0) / (1 / 2)) + 1 = 21 ∧
      ((distList 0 10 (1 / 2)).length : ℤ) ≠ Int.floor (((10 : ℚ) - 0) / (1 / 2)) + 1 := by
  have hceil : Int.ceil ((10 : ℚ) + 2⁻¹) = 11 := by
    rw [Int.ceil_eq_iff]
    norm_num
  have h : (distList 0 10 (1 / 2)).length = 11 := by
    simp [distList, arange, arangeLen, hceil]
  have hfl : Int.floor (((10 : ℚ) - 0) / (1 / 2)) = 20 := by
    rw [Int.floor_eq_iff]
    norm_num
  refine ⟨h, by rw [hfl]; norm_num, ?_⟩
  rw [h, hfl]
  norm_num

theorem pmul_comm (a b : List ℚ) : pmul a b = pmul b a := by
  unfold pmul
  induction a generalizing b with
  | nil => cases b <;> simp
  | cons x xs ih =>
      cases b with
      | nil => simp
      | cons y ys => simp [mul_comm, ih]

/-- Claim C4 (corrected): in the post-stack finisher with post-filtering
enabled, each row is transformed by FIRST applying the configured zero-phase
Butterworth filter and THEN multiplying by the Tukey window: the output row is
`window · filter(row)`, not `filter(window · row)`. -/
theorem c4_filter_then_window (filt : List ℚ → List ℚ) (w : List ℚ)
    (rows : List (List ℚ)) :
    postFilterRows filt w rows = rows.map (fun row => pmul w (filt row)) := by
  unfold postFilterRows
  simp [pmul_comm]

/-- Claim C4 counterexample: instantiating the (imported, hence abstracted)
filter with the concrete linear map `List.reverse` and the window `[1, 0]`,
the loop of lines 281-288 produces `[[2, 0]]` on the row `[1, 2]`, while the
claimed order `filter(window · row)` produces `[[0, 1]]` — so the output row
does not equal `filter(window · row)`. -/
theorem c4_counterexample :
    postFilterRows List.reverse [1, 0] [[1, 2]] = [[2, 0]] ∧
      ([[1, 2]] : List (List ℚ)).map (fun row => List.reverse (pmul [1, 0] row)) = [[0, 1]] ∧
      ([[2, 0]] : List (List ℚ)) ≠ [[0, 1]] := by
  refine ⟨?_, ?_, by norm_num⟩ <;> simp [postFilterRows, pmul]

theorem zipWith_add_getD (a b : List ℤ) (i : ℕ) (hi : i < a.length)
    (hlen : a.length = b.length) :
    (List.zipWith (fun u v => u + v) a b).getD i 0 = a.getD i 0 + b.getD i 0 := by
  induction a generalizing b i with
  | nil => simp at hi
  | cons x xs ih =>
      cases b with
      | nil => simp at hlen
      | cons y ys =>
          cases i with
          | zero => simp
          | succ j =>
              simp only [List.zipWith_cons_cons, List.getD_cons_succ]
              exact ih ys j (by simpa using hi) (by simpa using hlen)

theorem reduce_foldl_getD (b : ℕ) :
    ∀ (cs : List (List ℤ)) (acc : List ℤ),
      (∀ l ∈ cs, l.length = acc.length) → b < acc.length →
      (cs.foldl (fun acc l => List.zipWith (fun u v => u + v) acc l) acc).getD b 0
        = acc.getD b 0 + (cs.map (fun l => l.getD b 0)).sum := by
  intro cs
  induction cs with
  | nil => intro acc _ _; simp
  | cons c t ih =>
      intro acc hlen hb
      have hc : c.length = acc.length := hlen c (List.mem_cons_self c t)
      have hzl : (List.zipWith (fun u v => u + v) acc c).length = acc.length := by
        rw [List.length_zipWith, hc, min_self]
      rw [List.foldl_cons, ih (List.zipWith (fun u v => u + v) acc c)
            (fun l hl => by rw [hzl]; exact hlen l (List.mem_cons_of_mem c hl))
            (by rw [hzl]; exact hb)]
      rw [zipWith_add_getD acc c b hb hc.symm]
      simp only [List.map_cons, List.sum_cons]
      ring

/-- Claim C8 (corrected): in per-bin SAC output mode the header slot stores
rank 0's LOCAL pair count `stack_count[b]`, while the grouped-dataset mode
stores the reduced global count; the global count exceeds the SAC value by
the other workers' contributions, so the two agree only when no other worker
contributes at bin `b` (in particular when `P = 1`). -/
theorem c8_sac_vs_global (c : List ℤ) (cs : List (List ℤ)) (b : ℕ)
    (hlen : ∀ l ∈ cs, l.length = c.length) (hb : b < c.length) :
    (globalReduce (c :: cs)).getD b 0
      = sacUser3 c b + (cs.map (fun l => l.getD b 0)).sum := by
  unfold globalReduce sacUser3
  exact reduce_foldl_getD b cs c hlen hb

/-- Claim C8 witness: with rank 0 count `[3, 4]` and one further worker
contributing `[10, 20]`, the dataset's global count at bin 1 is `24`, the
SAC header value `4` plus the other worker's `20`. -/
theorem c8_witness :
    (∀ l ∈ [[10, 20]], List.length l = List.length ([3, 4] : List ℤ)) ∧
      (1 : ℕ) < List.length ([3, 4] : List ℤ) ∧
      (globalReduce [[3, 4], [10, 20]]).getD 1 0
        = sacUser3 [3, 4] 1 + (([[10, 20]] : List (List ℤ)).map (fun l => l.getD 1 0)).sum :=
  ⟨by decide, by decide, c8_sac_vs_global [3, 4] [[10, 20]] 1 (by decide) (by decide)⟩

/-- Claim C8 counterexample: with two workers whose local counts are `[1]`
and `[1]`, the grouped-dataset mode records the global count `2` at bin 0
while the SAC header slot records rank 0's local count `1`. -/
theorem c8_counterexample :
    (globalReduce [[1], [1]]).getD 0 0 = 2 ∧ sacUser3 [1] 0 = 1 ∧ (2 : ℤ) ≠ 1 := by
  decide

theorem findIdx_eq_of_first {α : Type} (p : α → Bool) (d : α) :
    ∀ (l : List α) (j : ℕ), j < l.length → p (l.getD j d) = true →
      (∀ k, k < j → p (l.getD k d) = false) → l.findIdx p = j := by
  intro l
  induction l with
  | nil => intro j hj _ _; simp at hj
  | cons x xs ih =>
      intro j hj hp hmin
      cases j with
      | zero =>
          simp only [List.getD_cons_zero] at hp
          rw [List.findIdx_cons, hp]
          rfl
      | succ n =>
          have h0 : p x = false := by
            have := hmin 0 (Nat.succ_pos n)
            simpa using this
          rw [List.findIdx_cons, h0]
          have hr : xs.findIdx p = n :=
            ih n (by simpa using hj) (by simpa using hp)
              (fun k hk => by simpa using hmin (k + 1) (by omega))
          simp [hr]

theorem getD_drop_add (l : List ℚ) (i j : ℕ) (d : ℚ) :
    (l.drop i).getD j d = l.getD (i + j) d := by
  simp [List.getD_eq_getElem?_getD, List.getElem?_drop]

/-- Claim C5 (corrected): given the half-spectrum magnitude `A`, `get_bound`
returns `i2` equal to ONE MORE than the first index `j0 ≥ i1` with
`A[j0] ≤ ε·max(A)` (and the final clip is at `fftsize = M`, not `M/2+1`;
it never fires since `i2 ≤ M/2+1 ≤ M` for a half-spectrum input). -/
theorem c5_i2_one_past (amp : List ℚ) (fftsize : ℕ) (eps : ℚ) (j0 : ℕ)
    (hlen : j0 < amp.length)
    (hi1 : (get_bound_core amp fftsize eps).1 ≤ j0)
    (hle : amp.getD j0 0 ≤ listMax amp * eps)
    (hmin : ∀ k, (get_bound_core amp fftsize eps).1 ≤ k → k < j0 →
      listMax amp * eps < amp.getD k 0)
    (hclip : j0 + 1 ≤ fftsize) :
    (get_bound_core amp fftsize eps).2 = j0 + 1 := by
  unfold get_bound_core at hi1 hmin ⊢
  unfold npArgmaxWhere npArgminWhere at hi1 hmin ⊢
  dsimp only at hi1 hmin ⊢
  set c := listMax amp * eps with hc
  set f : ℚ → Bool := fun a => decide (c < a) with hf
  set i1 := (if amp.findIdx f < amp.length then amp.findIdx f else 0) with hi1d
  have hfind : (amp.drop i1).findIdx (fun a => !(f a)) = j0 - i1 := by
    apply findIdx_eq_of_first _ 0
    · rw [List.length_drop]; omega
    · rw [getD_drop_add]
      have he : i1 + (j0 - i1) = j0 := by omega
      rw [he]
      simp only [hf, Bool.not_eq_true', decide_eq_false_iff_not, not_lt]
      exact hle
    · intro k hk
      rw [getD_drop_add]
      simp only [hf, Bool.not_eq_false', decide_eq_true_eq]
      exact hmin (i1 + k) (Nat.le_add_right _ _) (by omega)
  have hlt : j0 - i1 < (amp.drop i1).length := by rw [List.length_drop]; omega
  rw [hfind, if_pos hlt]
  have hsum : j0 - i1 + i1 + 1 = j0 + 1 := by omega
  rw [hsum]
  rcases Nat.lt_or_ge (j0 + 1) fftsize with h | h
  · rw [if_neg (by omega)]
  · rw [if_pos (by omega)]
    omega

/-- Claim C5 counterexample: for the magnitude array `A = [0, 4, 4, 0]` with
`M = 6` (half-spectrum length `M/2+1 = 4`) and `ε = 1/100`: `i1 = 1`, the
first index after `i1` with `A[i] ≤ ε·max(A)` is `3`, yet the code returns
`i2 = 4 ≠ 3`. -/
theorem c5_counterexample :
    get_bound_core [0, 4, 4, 0] 6 (1 / 100) = (1, 4) ∧
      (([0, 4, 4, 0] : List ℚ).getD 3 0 ≤ listMax [0, 4, 4, 0] * (1 / 100)) ∧
      (∀ j < 3, 1 < j → listMax [0, 4, 4, 0] * (1 / 100) < ([0, 4, 4, 0] : List ℚ).getD j 0) ∧
      (4 : ℕ) ≠ 3 := by
  have hmax : listMax [0, 4, 4, 0] = 4 := by
    norm_num [listMax, List.foldl, max_def]
  refine ⟨?_, ?_, ?_, by norm_num⟩
  · norm_num [get_bound_core, npArgmaxWhere, npArgminWhere, hmax, List.findIdx_cons]
  · norm_num [hmax]
  · intro j hj hj2
    interval_cases j
    norm_num [hmax]

/-- Claim C5 witness: for `A = [0, 9, 9, 0, 5]`, `M = 8`, `ε = 1/10` the
first index at or past `i1 = 1` with `A[i] ≤ ε·max(A) = 9/10` is `j0 = 3`,
and the code indeed returns `i2 = j0 + 1 = 4`. -/
theorem c5_witness :
    (3 < List.length ([0, 9, 9, 0, 5] : List ℚ)) ∧
      (get_bound_core [0, 9, 9, 0, 5] 8 (1 / 10)).1 ≤ 3 ∧
      (([0, 9, 9, 0, 5] : List ℚ).getD 3 0 ≤ listMax [0, 9, 9, 0, 5] * (1 / 10)) ∧
      (3 + 1 ≤ 8) ∧
      (get_bound_core [0, 9, 9, 0, 5] 8 (1 / 10)).2 = 3 + 1 := by
  have hmax : listMax [0, 9, 9, 0, 5] = 9 := by
    norm_num [listMax, List.foldl, max_def]
  have hfst : (get_bound_core [0, 9, 9, 0, 5] 8 (1 / 10)).1 = 1 := by
    norm_num [get_bound_core, npArgmaxWhere, npArgminWhere, hmax, List.findIdx_cons]
  refine ⟨by norm_num, by rw [hfst]; norm_num, by norm_num [hmax], by norm_num, ?_⟩
  apply c5_i2_one_past [0, 9, 9, 0, 5] 8 (1 / 10) 3 (by norm_num)
    (by rw [hfst]; norm_num) (by norm_num [hmax]) ?_ (by norm_num)
  intro k hk1 hk2
  rw [hfst] at hk1
  interval_cases k <;> norm_num [hmax]

theorem radians_sub (a b : ℝ) : radians (a - b) = radians a - radians b := by
  unfold radians
  ring

theorem sin_mul_self_half (t : ℝ) :
    Real.sin (t * 0.5) * Real.sin (t * 0.5) = 1 / 2 - Real.cos t / 2 := by
  have h := Real.sin_sq_eq_half_sub (t * 0.5)
  have h2 : 2 * (t * 0.5) = t := by ring
  rw [h2] at h
  nlinarith [h]

theorem haversine_a_eq_dotD (lo1 la1 lo2 la2 : ℝ) :
    haversine_a lo1 la1 lo2 la2 = (1 - dotD lo1 la1 lo2 la2) / 2 := by
  unfold haversine_a dotD
  dsimp only
  rw [show radians lo2 - radians lo1 = radians (lo2 - lo1) from (radians_sub lo2 lo1).symm]
  have e1 := sin_mul_self_half (radians la2 - radians la1)
  have e2 := sin_mul_self_half (radians (lo2 - lo1))
  have e3 := Real.cos_sub (radians la2) (radians la1)
  linear_combination e1 + Real.cos (radians la1) * Real.cos (radians la2) * e2 - e3 / 2

theorem dot_abs_le (s1 c1 s2 c2 ca : ℝ) (h1 : s1 ^ 2 + c1 ^ 2 = 1)
    (h2 : s2 ^ 2 + c2 ^ 2 = 1) (hca1 : -1 ≤ ca) (hca2 : ca ≤ 1) :
    -1 ≤ s1 * s2 + c1 * c2 * ca ∧ s1 * s2 + c1 * c2 * ca ≤ 1 := by
  constructor
  · rcases le_total 0 (c1 * c2) with h | h
    · nlinarith [sq_nonneg (s1 + s2), sq_nonneg (c1 - c2)]
    · nlinarith [sq_nonneg (s1 + s2), sq_nonneg (c1 + c2)]
  · rcases le_total 0 (c1 * c2) with h | h
    · nlinarith [sq_nonneg (s1 - s2), sq_nonneg (c1 - c2)]
    · nlinarith [sq_nonneg (s1 - s2), sq_nonneg (c1 + c2)]

theorem dotD_mem (lo1 la1 lo2 la2 : ℝ) :
    -1 ≤ dotD lo1 la1 lo2 la2 ∧ dotD lo1 la1 lo2 la2 ≤ 1 := by
  unfold dotD
  exact dot_abs_le _ _ _ _ _ (Real.sin_sq_add_cos_sq _) (Real.sin_sq_add_cos_sq _)
    (Real.neg_one_le_cos _) (Real.cos_le_one _)

theorem haversine_a_mem (lon1 lat1 lon2 lat2 : ℝ) :
    0 ≤ haversine_a lon1 lat1 lon2 lat2 ∧ haversine_a lon1 lat1 lon2 lat2 ≤ 1 := by
  rw [haversine_a_eq_dotD]
  obtain ⟨h1, h2⟩ := dotD_mem lon1 lat1 lon2 lat2
  constructor <;> linarith

/-- Claim C10 (confirmed): for all real inputs — including latitudes outside
`[-90, 90]` — the intermediate `a` of `haversine` lies in `[0, 1]`, so
`sqrt(a)` lies in `[-1, 1]` and is a valid argument to `arcsin`; the
computation is total in exact real arithmetic. -/
theorem c10_haversine_total (lon1 lat1 lon2 lat2 : ℝ) :
    0 ≤ haversine_a lon1 lat1 lon2 lat2 ∧ haversine_a lon1 lat1 lon2 lat2 ≤ 1 ∧
      -1 ≤ Real.sqrt (haversine_a lon1 lat1 lon2 lat2) ∧
      Real.sqrt (haversine_a lon1 lat1 lon2 lat2) ≤ 1 := by
  obtain ⟨h1, h2⟩ := haversine_a_mem lon1 lat1 lon2 lat2
  exact ⟨h1, h2, le_trans (by norm_num) (Real.sqrt_nonneg _), Real.sqrt_le_one.mpr h2⟩

theorem haversine_refl (lo la : ℝ) : haversine lo la lo la = 0 := by
  have ha : haversine_a lo la lo la = 0 := by
    unfold haversine_a
    simp
  unfold haversine
  rw [ha]
  simp [rad2deg]

theorem np_round_intCast (n : ℤ) : np_round ((n : ℤ) : ℝ) = n := by
  unfold np_round
  rw [Int.fract_intCast]
  rw [if_neg (by norm_num)]
  exact round_intCast n

theorem ccstack_singleton (t : Trace) (cnt : List ℤ) (mat : List (List Cplx))
    (dist_step dist_start : ℝ) (i1 i2 : ℕ) :
    ccstack [t] cnt mat dist_step i1 i2 dist_start
      = ccstackPairStep dist_step dist_start i1 i2 t t (mat, cnt, 0) := by
  unfold ccstack
  have hp : pairList ([t] : List Trace).length = [(0, 0)] := rfl
  rw [hp]
  simp [List.foldlM]

/-- Claim C6 (corrected): `ccstack` performs NO bin-range check.  For a
single-trace group whose (zero) self-distance yields a negative bin index
`b = round((0 - d_start)/Δd) ∈ [-B, 0)`, the pair is not dropped: via
Python negative indexing it accumulates the auto-power into row `B + b`
of the stack matrix and increments `cnt[B + b]` — the accumulation does
change entries of `Sspec` and `cnt` (and an index outside `[-B, B)` is an
out-of-bounds error, not a silent drop). -/
theorem c6_negative_bin_accumulates (t : Trace) (cnt : List ℤ)
    (mat : List (List Cplx)) (dist_step dist_start : ℝ) (i1 i2 : ℕ) (b : ℤ)
    (hlen : cnt.length = mat.length)
    (hb : np_round ((0 - dist_start) / dist_step) = b)
    (hge : -(mat.length : ℤ) ≤ b) (hlt : b < 0) :
    ccstack [t] cnt mat dist_step i1 i2 dist_start
      = some (mat.set ((mat.length : ℤ) + b).toNat
                (sliceAdd (mat.getD ((mat.length : ℤ) + b).toNat []) t.spec t.spec i1 i2),
              cnt.set ((cnt.length : ℤ) + b).toNat
                (cnt.getD ((cnt.length : ℤ) + b).toNat 0 + 1),
              1) := by
  rw [ccstack_singleton]
  unfold ccstackPairStep
  dsimp only
  rw [haversine_refl, hb]
  have hm : pyIdx mat.length b = some ((mat.length : ℤ) + b).toNat := by
    unfold pyIdx
    rw [if_neg (by omega), if_pos ⟨hge, hlt⟩]
  have hcnt : pyIdx cnt.length b = some ((cnt.length : ℤ) + b).toNat := by
    unfold pyIdx
    rw [if_neg (by omega), if_pos ⟨by rw [hlen]; exact hge, hlt⟩]
  rw [hm, hcnt]

/-- Claim C7 (corrected): whenever the configured range satisfies
`round((0 - d_start)/Δd) = 0` — as with the default `dmin = 0`, and also for
some positive `dmin` (e.g. `dmin = 0.4`, `Δd = 1`, since `round(-0.4) = 0`) —
the pair-accumulation step on the self-pair `(i, i)` adds
`conj(G[i,k])·G[i,k]` over `k ∈ [i1, i2)` to row 0, increments `cnt[0]`
by 1, and each added element is real and nonnegative (`im = 0`, `re ≥ 0`).
This conditioning is what the counterexample forces: the claim's
"for every configured distance range" fails at `d_start = 3`, `Δd = 1`,
where the self-pair's bin index rounds to `-3`, not `0`. -/
theorem c7_selfpair_bin_zero (dist_step dist_start : ℝ) (i1 i2 : ℕ) (t : Trace)
    (mat : List (List Cplx)) (cnt : List ℤ) (count : ℕ)
    (hmat : 0 < mat.length) (hcnt : 0 < cnt.length)
    (hb : np_round ((0 - dist_start) / dist_step) = 0) :
    ccstackPairStep dist_step dist_start i1 i2 t t (mat, cnt, count)
        = some (mat.set 0 (sliceAdd (mat.getD 0 []) t.spec t.spec i1 i2),
                cnt.set 0 (cnt.getD 0 0 + 1), count + 1) ∧
      ∀ k : ℕ,
        (Cplx.mul (Cplx.conj (t.spec.getD k Cplx.zero)) (t.spec.getD k Cplx.zero)).im = 0 ∧
        0 ≤ (Cplx.mul (Cplx.conj (t.spec.getD k Cplx.zero)) (t.spec.getD k Cplx.zero)).re := by
  constructor
  · unfold ccstackPairStep
    dsimp only
    rw [haversine_refl, hb]
    have hm : pyIdx mat.length 0 = some 0 := by
      unfold pyIdx
      rw [if_pos ⟨le_refl 0, by exact_mod_cast hmat⟩]
      rfl
    have hc : pyIdx cnt.length 0 = some 0 := by
      unfold pyIdx
      rw [if_pos ⟨le_refl 0, by exact_mod_cast hcnt⟩]
      rfl
    rw [hm, hc]
  · intro k
    unfold Cplx.mul Cplx.conj
    dsimp only
    constructor
    · ring
    · nlinarith [sq_nonneg (t.spec.getD k Cplx.zero).re, sq_nonneg (t.spec.getD k Cplx.zero).im]

/-- Claim C6 witness: one trace at `(0, 0)` (self-distance `0`), `B = 3`
bins, `Δd = 1`, `d_start = 2`: the bin index is `-2 ∈ [-3, 0)` and the run
increments `cnt[3 + (-2)] = cnt[1]` and adds the auto-power to row 1. -/
theorem c6_witness :
    List.length ([0, 0, 0] : List ℤ) = List.length [[Cplx.zero], [Cplx.zero], [Cplx.zero]] ∧
      np_round (((0 : ℝ) - 2) / 1) = -2 ∧
      (-(List.length [[Cplx.zero], [Cplx.zero], [Cplx.zero]] : ℤ) ≤ -2) ∧ ((-2 : ℤ) < 0) ∧
      ccstack [⟨0, 0, [⟨1, 0⟩]⟩] [0, 0, 0] [[Cplx.zero], [Cplx.zero], [Cplx.zero]] 1 0 1 2
        = some ([[Cplx.zero], [⟨1, 0⟩], [Cplx.zero]], [0, 1, 0], 1) := by
  have hb : np_round (((0 : ℝ) - 2) / 1) = -2 := by
    have h : ((0 : ℝ) - 2) / 1 = ((-2 : ℤ) : ℝ) := by norm_num
    rw [h, np_round_intCast]
  refine ⟨by norm_num, hb, by norm_num, by norm_num, ?_⟩
  have h := c6_negative_bin_accumulates ⟨0, 0, [⟨1, 0⟩]⟩ [0, 0, 0]
      [[Cplx.zero], [Cplx.zero], [Cplx.zero]] 1 2 0 1 (-2) (by norm_num) hb
      (by norm_num) (by norm_num)
  rw [h]
  norm_num [sliceAdd, List.mapIdx_cons, List.mapIdx_nil, Cplx.add, Cplx.mul, Cplx.conj,
    Cplx.zero, List.set]

/-- Claim C6 counterexample: with a single trace at `(0, 0)`, `B = 3`,
`Δd = 1`, `d_start = 2`, the self-pair's bin index is `-2 ∉ [0, B)`, yet the
pair is NOT silently dropped: the count vector changes from `[0, 0, 0]` to
`[0, 1, 0]` (Python negative indexing accumulates into row `B - 2 = 1`). -/
theorem c6_counterexample :
    (ccstack [⟨0, 0, [⟨1, 0⟩]⟩] [0, 0, 0] [[Cplx.zero], [Cplx.zero], [Cplx.zero]]
        1 0 1 2).map (fun s => s.2.1) = some [0, 1, 0] ∧
      ([0, 1, 0] : List ℤ) ≠ [0, 0, 0] := by
  constructor
  · rw [ccstack_singleton]
    unfold ccstackPairStep
    dsimp only
    rw [haversine_refl]
    have hb : np_round (((0 : ℝ) - 2) / 1) = -2 := by
      have h : ((0 : ℝ) - 2) / 1 = ((-2 : ℤ) : ℝ) := by norm_num
      rw [h, np_round_intCast]
    rw [hb]
    have hm : pyIdx (List.length [[Cplx.zero], [Cplx.zero], [Cplx.zero]]) (-2) = some 1 := by
      unfold pyIdx
      norm_num
    have hc : pyIdx (List.length ([0, 0, 0] : List ℤ)) (-2) = some 1 := by
      unfold pyIdx
      norm_num
    rw [hm, hc]
    norm_num [List.set]
  · norm_num

/-- Claim C7 witness: a self-pair with spectrum `[(0, 3i)]`, `d_start = 0`,
`Δd = 2`, one allocated bin holding count `4`: the step adds the auto-power
`9` (real, nonnegative) to row 0 and increments `cnt[0]` to `5`. -/
theorem c7_witness :
    (0 : ℕ) < List.length [[Cplx.zero]] ∧ (0 : ℕ) < List.length ([4] : List ℤ) ∧
      np_round (((0 : ℝ) - 0) / 2) = 0 ∧
      ccstackPairStep 2 0 0 1 ⟨7, 20, [⟨0, 3⟩]⟩ ⟨7, 20, [⟨0, 3⟩]⟩ ([[Cplx.zero]], [4], 2)
        = some ([[⟨9, 0⟩]], [5], 3) ∧
      (Cplx.mul (Cplx.conj ⟨0, 3⟩) ⟨0, 3⟩).im = 0 ∧ 0 ≤ (Cplx.mul (Cplx.conj ⟨0, 3⟩) ⟨0, 3⟩).re := by
  have hb : np_round (((0 : ℝ) - 0) / 2) = 0 := by
    have h : ((0 : ℝ) - 0) / 2 = ((0 : ℤ) : ℝ) := by norm_num
    rw [h, np_round_intCast]
  obtain ⟨h1, h2⟩ := c7_selfpair_bin_zero 2 0 0 1 ⟨7, 20, [⟨0, 3⟩]⟩ [[Cplx.zero]] [4] 2
    (by norm_num) (by norm_num) hb
  refine ⟨by norm_num, by norm_num, hb, ?_, ?_, ?_⟩
  · rw [h1]
    norm_num [sliceAdd, List.mapIdx_cons, List.mapIdx_nil, Cplx.add, Cplx.mul, Cplx.conj,
      Cplx.zero, List.set]
  · exact (h2 0).1
  · exact (h2 0).2

/-- Claim C7 counterexample: at the particular configured range
`d_start = 3`, `Δd = 1` the self-pair's bin index is `round(-3) = -3`, so
its auto-power is accumulated into row `B - 3 = 2` and `cnt` becomes
`[0, 0, 1, 0, 0]`: `cnt[0]` is NOT incremented, refuting the claim's
"for every configured distance range (including dmin > 0)". -/
theorem c7_counterexample :
    (ccstackPairStep 1 3 0 1 ⟨5, 0, [⟨2, 0⟩]⟩ ⟨5, 0, [⟨2, 0⟩]⟩
        ([[Cplx.zero], [Cplx.zero], [Cplx.zero], [Cplx.zero], [Cplx.zero]],
          [0, 0, 0, 0, 0], 0)).map (fun s => s.2.1) = some [0, 0, 1, 0, 0] ∧
      ([0, 0, 1, 0, 0] : List ℤ).getD 0 0 = 0 := by
  constructor
  · unfold ccstackPairStep
    dsimp only
    rw [haversine_refl]
    have hb : np_round (((0 : ℝ) - 3) / 1) = -3 := by
      have h : ((0 : ℝ) - 3) / 1 = ((-3 : ℤ) : ℝ) := by norm_num
      rw [h, np_round_intCast]
    rw [hb]
    have hm : pyIdx (List.length [[Cplx.zero], [Cplx.zero], [Cplx.zero], [Cplx.zero],
        [Cplx.zero]]) (-3) = some 2 := by
      unfold pyIdx
      norm_num
      decide
    have hc : pyIdx (List.length ([0, 0, 0, 0, 0] : List ℤ)) (-3) = some 2 := by
      unfold pyIdx
      norm_num
      decide
    rw [hm, hc]
    norm_num [List.set]
  · norm_num

theorem radians_rad2deg (x : ℝ) : radians (rad2deg x) = x := by
  unfold radians rad2deg
  field_simp

theorem radians_neg_swap (a b : ℝ) : radians (a - b) = -(radians (b - a)) := by
  unfold radians
  ring

theorem radians_split (p a b : ℝ) : radians (p - a) = radians (p - b) + radians (b - a) := by
  unfold radians
  ring

theorem sin_radians_fmod360 (θ : ℝ) :
    Real.sin (radians (fmod (rad2deg θ) 360.0)) = Real.sin θ := by
  have h : radians (fmod (rad2deg θ) 360.0)
      = θ - ((Int.floor (rad2deg θ / 360.0) : ℤ) : ℝ) * (2 * Real.pi) := by
    unfold radians rad2deg fmod
    field_simp
    ring
  rw [h, Real.sin_sub_int_mul_two_pi]

theorem cos_radians_fmod360 (θ : ℝ) :
    Real.cos (radians (fmod (rad2deg θ) 360.0)) = Real.cos θ := by
  have h : radians (fmod (rad2deg θ) 360.0)
      = θ - ((Int.floor (rad2deg θ / 360.0) : ℤ) : ℝ) * (2 * Real.pi) := by
    unfold radians rad2deg fmod
    field_simp
    ring
  rw [h, Real.cos_sub_int_mul_two_pi]

theorem sin_radians_azimuth (evlo evla stlo stla : ℝ) :
    Real.sin (radians (azimuth evlo evla stlo stla))
      = Real.sin (arctan2 (azY evlo evla stlo stla) (azX evlo evla stlo stla)) := by
  unfold azimuth
  exact sin_radians_fmod360 _

theorem cos_radians_azimuth (evlo evla stlo stla : ℝ) :
    Real.cos (radians (azimuth evlo evla stlo stla))
      = Real.cos (arctan2 (azY evlo evla stlo stla) (azX evlo evla stlo stla)) := by
  unfold azimuth
  exact cos_radians_fmod360 _

theorem sqrt_mul_sin_arctan2 (x y : ℝ) :
    Real.sqrt (x ^ 2 + y ^ 2) * Real.sin (arctan2 y x) = y := by
  unfold arctan2
  rcases eq_or_ne (⟨x, y⟩ : ℂ) 0 with h | h
  · obtain ⟨hx, hy⟩ := Complex.ext_iff.mp h
    simp only [Complex.zero_re, Complex.zero_im] at hx hy
    subst hx hy
    simp
  · rw [Complex.sin_arg]
    have habs : Complex.abs ⟨x, y⟩ = Real.sqrt (x ^ 2 + y ^ 2) := by
      rw [Complex.abs_apply, Complex.normSq_mk]
      ring_nf
    have hne : Real.sqrt (x ^ 2 + y ^ 2) ≠ 0 := by
      rw [← habs]
      simpa using h
    rw [habs]
    field_simp

theorem sqrt_mul_cos_arctan2 (x y : ℝ) :
    Real.sqrt (x ^ 2 + y ^ 2) * Real.cos (arctan2 y x) = x := by
  unfold arctan2
  rcases eq_or_ne (⟨x, y⟩ : ℂ) 0 with h | h
  · obtain ⟨hx, hy⟩ := Complex.ext_iff.mp h
    simp only [Complex.zero_re, Complex.zero_im] at hx hy
    subst hx hy
    simp
  · rw [Complex.cos_arg h]
    have habs : Complex.abs ⟨x, y⟩ = Real.sqrt (x ^ 2 + y ^ 2) := by
      rw [Complex.abs_apply, Complex.normSq_mk]
      ring_nf
    have hne : Real.sqrt (x ^ 2 + y ^ 2) ≠ 0 := by
      rw [← habs]
      simpa using h
    rw [habs]
    field_simp

theorem one_sub_dotD_sq (lo1 la1 lo2 la2 : ℝ) :
    1 - dotD lo1 la1 lo2 la2 ^ 2
      = azX lo1 la1 lo2 la2 ^ 2 + azY lo1 la1 lo2 la2 ^ 2 := by
  unfold dotD azX azY
  have h1 := Real.sin_sq_add_cos_sq (radians la1)
  have h2 := Real.sin_sq_add_cos_sq (radians la2)
  have h3 := Real.sin_sq_add_cos_sq (radians (lo2 - lo1))
  linear_combination
    (-(Real.sin (radians la2) ^ 2 + Real.cos (radians la2) ^ 2 *
      Real.cos (radians (lo2 - lo1)) ^ 2)) * h1 - h2 -
      Real.cos (radians la2) ^ 2 * h3

theorem azNorm_symm (lo1 la1 lo2 la2 : ℝ) :
    azX lo2 la2 lo1 la1 ^ 2 + azY lo2 la2 lo1 la1 ^ 2
      = azX lo1 la1 lo2 la2 ^ 2 + azY lo1 la1 lo2 la2 ^ 2 := by
  unfold azX azY
  rw [radians_neg_swap lo1 lo2, Real.sin_neg, Real.cos_neg]
  have h1 := Real.sin_sq_add_cos_sq (radians la1)
  have h2 := Real.sin_sq_add_cos_sq (radians la2)
  have hg := Real.sin_sq_add_cos_sq (radians (lo2 - lo1))
  linear_combination
    (Real.sin (radians (lo2 - lo1)) ^ 2 * Real.cos (radians la2) ^ 2) * h1 -
      (Real.sin (radians (lo2 - lo1)) ^ 2 * Real.cos (radians la1) ^ 2) * h2 +
      (Real.cos (radians la1) ^ 2 * Real.sin (radians la2) ^ 2 -
        Real.cos (radians la2) ^ 2 * Real.sin (radians la1) ^ 2) * hg

theorem tripleT_antisym (ptlon ptlat lo1 la1 lo2 la2 : ℝ) :
    azY lo1 la1 ptlon ptlat * azX lo1 la1 lo2 la2
        - azX lo1 la1 ptlon ptlat * azY lo1 la1 lo2 la2
      = -(azY lo2 la2 ptlon ptlat * azX lo2 la2 lo1 la1
        - azX lo2 la2 ptlon ptlat * azY lo2 la2 lo1 la1) := by
  unfold azX azY
  rw [radians_split ptlon lo1 lo2, Real.sin_add, Real.cos_add,
    radians_neg_swap lo1 lo2, Real.sin_neg, Real.cos_neg]
  have hg := Real.sin_sq_add_cos_sq (radians (lo2 - lo1))
  linear_combination
    (-(Real.sin (radians la1) * Real.cos (radians la2) * Real.cos (radians ptlat) *
      Real.sin (radians (ptlon - lo2)))) * hg

theorem sin_dist_eq (lo1 la1 lo2 la2 : ℝ) :
    Real.sin (radians (haversine lo1 la1 lo2 la2))
      = Real.sqrt (azX lo1 la1 lo2 la2 ^ 2 + azY lo1 la1 lo2 la2 ^ 2) := by
  obtain ⟨ha0, ha1⟩ := haversine_a_mem lo1 la1 lo2 la2
  set a := haversine_a lo1 la1 lo2 la2 with hadef
  have hrr : radians (haversine lo1 la1 lo2 la2) = 2.0 * Real.arcsin (Real.sqrt a) := by
    unfold haversine
    rw [radians_rad2deg]
  rw [hrr, show (2.0 : ℝ) = 2 by norm_num, Real.sin_two_mul]
  have hs1 : Real.sin (Real.arcsin (Real.sqrt a)) = Real.sqrt a :=
    Real.sin_arcsin (le_trans (by norm_num) (Real.sqrt_nonneg a)) (Real.sqrt_le_one.mpr ha1)
  have hc1 : Real.cos (Real.arcsin (Real.sqrt a)) = Real.sqrt (1 - Real.sqrt a ^ 2) :=
    Real.cos_arcsin _
  rw [hs1, hc1, Real.sq_sqrt ha0]
  have key : 2 * Real.sqrt a * Real.sqrt (1 - a) = Real.sqrt (4 * (a * (1 - a))) := by
    rw [show (4 : ℝ) * (a * (1 - a)) = (2 : ℝ) ^ 2 * (a * (1 - a)) by ring,
      Real.sqrt_mul (by positivity), Real.sqrt_sq (by norm_num), Real.sqrt_mul ha0]
    ring
  rw [key]
  congr 1
  have hd := haversine_a_eq_dotD lo1 la1 lo2 la2
  rw [← hadef] at hd
  have ho := one_sub_dotD_sq lo1 la1 lo2 la2
  linear_combination (2 - 4 * a + 2 * dotD lo1 la1 lo2 la2) * hd + ho

theorem pg_expr_eq (ptlon ptlat lon1 lat1 lon2 lat2 : ℝ)
    (hN : azX lon1 lat1 lon2 lat2 ^ 2 + azY lon1 lat1 lon2 lat2 ^ 2 ≠ 0) :
    Real.sin (radians (haversine lon1 lat1 ptlon ptlat)) *
      Real.sin (radians (azimuth lon1 lat1 ptlon ptlat)
        - radians (azimuth lon1 lat1 lon2 lat2))
    = (azY lon1 lat1 ptlon ptlat * azX lon1 lat1 lon2 lat2
        - azX lon1 lat1 ptlon ptlat * azY lon1 lat1 lon2 lat2)
      / Real.sqrt (azX lon1 lat1 lon2 lat2 ^ 2 + azY lon1 lat1 lon2 lat2 ^ 2) := by
  have hr12 : Real.sqrt (azX lon1 lat1 lon2 lat2 ^ 2 + azY lon1 lat1 lon2 lat2 ^ 2) ≠ 0 := by
    intro h
    apply hN
    have hle := Real.sqrt_eq_zero'.mp h
    have hge : 0 ≤ azX lon1 lat1 lon2 lat2 ^ 2 + azY lon1 lat1 lon2 lat2 ^ 2 := by positivity
    linarith
  rw [Real.sin_sub, sin_radians_azimuth, cos_radians_azimuth, sin_radians_azimuth,
    cos_radians_azimuth, sin_dist_eq]
  have hs12 : Real.sin (arctan2 (azY lon1 lat1 lon2 lat2) (azX lon1 lat1 lon2 lat2))
      = azY lon1 lat1 lon2 lat2
        / Real.sqrt (azX lon1 lat1 lon2 lat2 ^ 2 + azY lon1 lat1 lon2 lat2 ^ 2) := by
    rw [eq_div_iff hr12, mul_comm]
    exact sqrt_mul_sin_arctan2 _ _
  have hc12 : Real.cos (arctan2 (azY lon1 lat1 lon2 lat2) (azX lon1 lat1 lon2 lat2))
      = azX lon1 lat1 lon2 lat2
        / Real.sqrt (azX lon1 lat1 lon2 lat2 ^ 2 + azY lon1 lat1 lon2 lat2 ^ 2) := by
    rw [eq_div_iff hr12, mul_comm]
    exact sqrt_mul_cos_arctan2 _ _
  have hs13 := sqrt_mul_sin_arctan2 (azX lon1 lat1 ptlon ptlat) (azY lon1 lat1 ptlon ptlat)
  have hc13 := sqrt_mul_cos_arctan2 (azX lon1 lat1 ptlon ptlat) (azY lon1 lat1 ptlon ptlat)
  rw [hs12, hc12, eq_div_iff hr12]
  field_simp
  linear_combination (azX lon1 lat1 lon2 lat2) * hs13 - (azY lon1 lat1 lon2 lat2) * hc13

theorem rad2deg_arcsin_neg (t : ℝ) : rad2deg (Real.arcsin (-t)) = -rad2deg (Real.arcsin t) := by
  rw [Real.arcsin_neg]
  unfold rad2deg
  ring

/-- Claim C9 (corrected): `point_to_gcp(p, A, B) = -point_to_gcp(p, B, A)`
holds in exact real arithmetic whenever (i) A and B differ by at least
`10⁻⁴` in some coordinate (so the coincidence guard is off in both orders)
AND (ii) the unit position vectors of A and B are not collinear — expressed
as `azX(A,B)² + azY(A,B)² ≠ 0`, the squared norm of `A × B`.  Without (ii)
the identity fails for coordinate pairs representing the same or antipodal
physical points (e.g. two north-pole representations with different
longitudes), even though they satisfy the claim's coordinate-difference
hypothesis. -/
theorem c9_point_to_gcp_antisym (ptlon ptlat lon1 lat1 lon2 lat2 : ℝ)
    (hguard : ¬(|lon1 - lon2| < 1 / 10000 ∧ |lat1 - lat2| < 1 / 10000))
    (hcol : azX lon1 lat1 lon2 lat2 ^ 2 + azY lon1 lat1 lon2 lat2 ^ 2 ≠ 0) :
    point_distance_to_great_circle_plane ptlon ptlat lon1 lat1 lon2 lat2
      = -point_distance_to_great_circle_plane ptlon ptlat lon2 lat2 lon1 lat1 := by
  have hguard2 : ¬(|lon2 - lon1| < 1 / 10000 ∧ |lat2 - lat1| < 1 / 10000) := by
    rw [abs_sub_comm lon2 lon1, abs_sub_comm lat2 lat1]
    exact hguard
  have hcol2 : azX lon2 lat2 lon1 lat1 ^ 2 + azY lon2 lat2 lon1 lat1 ^ 2 ≠ 0 := by
    rw [azNorm_symm]
    exact hcol
  unfold point_distance_to_great_circle_plane
  rw [if_neg hguard, if_neg hguard2]
  dsimp only
  rw [pg_expr_eq ptlon ptlat lon1 lat1 lon2 lat2 hcol,
    pg_expr_eq ptlon ptlat lon2 lat2 lon1 lat1 hcol2]
  rw [azNorm_symm lon1 lat1 lon2 lat2]
  have hT := tripleT_antisym ptlon ptlat lon1 lat1 lon2 lat2
  have hT2 : azY lon2 lat2 ptlon ptlat * azX lon2 lat2 lon1 lat1
      - azX lon2 lat2 ptlon ptlat * azY lon2 lat2 lon1 lat1
      = -(azY lon1 lat1 ptlon ptlat * azX lon1 lat1 lon2 lat2
        - azX lon1 lat1 ptlon ptlat * azY lon1 lat1 lon2 lat2) := by
    linarith [hT]
  rw [hT2, neg_div, rad2deg_arcsin_neg]
  ring

/-- Claim C9 witness: for `A = (0°, 0°)`, `B = (90°, 0°)` (two genuinely
distinct, non-collinear points) and `p = (0°, 45°)`, both hypotheses hold
and the antisymmetry follows. -/
theorem c9_witness :
    ¬(|(0 : ℝ) - 90| < 1 / 10000 ∧ |(0 : ℝ) - 0| < 1 / 10000) ∧
      azX 0 0 90 0 ^ 2 + azY 0 0 90 0 ^ 2 ≠ 0 ∧
      point_distance_to_great_circle_plane 0 45 0 0 90 0
        = -point_distance_to_great_circle_plane 0 45 90 0 0 0 := by
  have hg : ¬(|(0 : ℝ) - 90| < 1 / 10000 ∧ |(0 : ℝ) - 0| < 1 / 10000) := by
    rw [show ((0 : ℝ) - 90) = -90 by norm_num, abs_neg, abs_of_nonneg (by norm_num : (0:ℝ) ≤ 90)]
    intro h
    have := h.1
    norm_num at this
  have hcol : azX 0 0 90 0 ^ 2 + azY 0 0 90 0 ^ 2 ≠ 0 := by
    have h0 : radians (0 : ℝ) = 0 := by unfold radians; ring
    have h90 : radians ((90 : ℝ) - 0) = Real.pi / 2 := by unfold radians; ring
    unfold azX azY
    rw [h0, h90]
    rw [Real.sin_zero, Real.cos_zero, Real.sin_pi_div_two]
    norm_num
  exact ⟨hg, hcol, c9_point_to_gcp_antisym 0 45 0 0 90 0 hg hcol⟩

theorem radians_zero : radians 0 = 0 := by
  unfold radians
  ring

theorem radians_90 : radians 90 = Real.pi / 2 := by
  unfold radians
  ring

theorem radians_180 : radians 180 = Real.pi := by
  unfold radians
  ring

theorem rad2deg_zero : rad2deg 0 = 0 := by
  unfold rad2deg
  ring

theorem rad2deg_pi_div_two : rad2deg (Real.pi / 2) = 90 := by
  unfold rad2deg
  field_simp
  ring

theorem rad2deg_pi : rad2deg Real.pi = 180 := by
  unfold rad2deg
  field_simp

theorem arctan2_one_zero : arctan2 1 0 = Real.pi / 2 := by
  unfold arctan2
  rw [show (⟨0, 1⟩ : ℂ) = Complex.I from rfl]
  exact Complex.arg_I

theorem arctan2_zero_neg_one : arctan2 0 (-1) = Real.pi := by
  unfold arctan2
  rw [show (⟨-1, 0⟩ : ℂ) = -1 by apply Complex.ext <;> simp]
  exact Complex.arg_neg_one

theorem arctan2_zero_zero : arctan2 0 0 = 0 := by
  unfold arctan2
  rw [show (⟨0, 0⟩ : ℂ) = 0 by apply Complex.ext <;> simp]
  exact Complex.arg_zero

theorem fmod_90_360 : fmod 90 360.0 = 90 := by
  unfold fmod
  have h : Int.floor ((90 : ℝ) / 360.0) = 0 := by
    rw [show ((90 : ℝ) / 360.0) = 1 / 4 by norm_num, Int.floor_eq_iff]
    norm_num
  rw [h]
  norm_num

theorem fmod_180_360 : fmod 180 360.0 = 180 := by
  unfold fmod
  have h : Int.floor ((180 : ℝ) / 360.0) = 0 := by
    rw [show ((180 : ℝ) / 360.0) = 1 / 2 by norm_num, Int.floor_eq_iff]
    norm_num
  rw [h]
  norm_num

theorem fmod_0_360 : fmod 0 360.0 = 0 := by
  unfold fmod
  have h : Int.floor ((0 : ℝ) / 360.0) = 0 := by
    rw [show ((0 : ℝ) / 360.0) = 0 by norm_num, Int.floor_eq_iff]
    norm_num
  rw [h]
  norm_num

theorem sqrt_one_half : Real.sqrt (1 / 2 : ℝ) = Real.sqrt 2 / 2 := by
  have h4 : Real.sqrt 4 = 2 := by
    rw [show (4 : ℝ) = 2 ^ 2 by norm_num, Real.sqrt_sq (by norm_num : (0:ℝ) ≤ 2)]
  rw [show (1 / 2 : ℝ) = 2 / 4 by norm_num,
    Real.sqrt_div (by norm_num : (0:ℝ) ≤ 2), h4]

theorem hav_a_0_90_90_0 : haversine_a 0 90 90 0 = 1 / 2 := by
  unfold haversine_a
  dsimp only
  have hdlat : (radians (0 : ℝ) - radians 90) * 0.5 = -(Real.pi / 4) := by
    unfold radians
    ring
  rw [hdlat, Real.sin_neg, Real.sin_pi_div_four, radians_90, Real.cos_pi_div_two]
  have h2 : Real.sqrt 2 ^ 2 = 2 := Real.sq_sqrt (by norm_num)
  ring_nf
  nlinarith [h2]

theorem hav_0_90_90_0 : haversine 0 90 90 0 = 90 := by
  unfold haversine
  rw [hav_a_0_90_90_0, sqrt_one_half]
  have harc : Real.arcsin (Real.sqrt 2 / 2) = Real.pi / 4 := by
    rw [← Real.sin_pi_div_four]
    exact Real.arcsin_sin (by linarith [Real.pi_pos]) (by linarith [Real.pi_pos])
  rw [harc, show (2.0 : ℝ) * (Real.pi / 4) = Real.pi / 2 by
    rw [show (2.0 : ℝ) = 2 by norm_num]; ring, rad2deg_pi_div_two]

theorem hav_a_90_90_90_0 : haversine_a 90 90 90 0 = 1 / 2 := by
  unfold haversine_a
  dsimp only
  have hdlat : (radians (0 : ℝ) - radians 90) * 0.5 = -(Real.pi / 4) := by
    unfold radians
    ring
  have hdlon : (radians (90 : ℝ) - radians 90) * 0.5 = 0 := by
    ring
  rw [hdlat, hdlon, Real.sin_neg, Real.sin_pi_div_four, Real.sin_zero]
  have h2 : Real.sqrt 2 ^ 2 = 2 := Real.sq_sqrt (by norm_num)
  ring_nf
  nlinarith [h2]

theorem hav_90_90_90_0 : haversine 90 90 90 0 = 90 := by
  unfold haversine
  rw [hav_a_90_90_90_0, sqrt_one_half]
  have harc : Real.arcsin (Real.sqrt 2 / 2) = Real.pi / 4 := by
    rw [← Real.sin_pi_div_four]
    exact Real.arcsin_sin (by linarith [Real.pi_pos]) (by linarith [Real.pi_pos])
  rw [harc, show (2.0 : ℝ) * (Real.pi / 4) = Real.pi / 2 by
    rw [show (2.0 : ℝ) = 2 by norm_num]; ring, rad2deg_pi_div_two]

theorem az_0_90_90_0 : azimuth 0 90 90 0 = 90 := by
  unfold azimuth
  have hY : azY 0 90 90 0 = 1 := by
    unfold azY
    rw [show ((90 : ℝ) - 0) = 90 by norm_num, radians_zero, radians_90, Real.cos_zero,
      Real.sin_pi_div_two]
    norm_num
  have hX : azX 0 90 90 0 = 0 := by
    unfold azX
    rw [show ((90 : ℝ) - 0) = 90 by norm_num, radians_zero, radians_90, Real.cos_pi_div_two,
      Real.sin_zero]
    ring
  rw [hY, hX, arctan2_one_zero, rad2deg_pi_div_two, fmod_90_360]

theorem az_0_90_90_90 : azimuth 0 90 90 90 = 0 := by
  unfold azimuth
  have hY : azY 0 90 90 90 = 0 := by
    unfold azY
    rw [show ((90 : ℝ) - 0) = 90 by norm_num, radians_90, Real.cos_pi_div_two]
    ring
  have hX : azX 0 90 90 90 = 0 := by
    unfold azX
    rw [show ((90 : ℝ) - 0) = 90 by norm_num, radians_90, Real.cos_pi_div_two]
    ring
  rw [hY, hX, arctan2_zero_zero, rad2deg_zero, fmod_0_360]

theorem az_90_90_90_0 : azimuth 90 90 90 0 = 180 := by
  unfold azimuth
  have hY : azY 90 90 90 0 = 0 := by
    unfold azY
    rw [show ((90 : ℝ) - 90) = 0 by norm_num, radians_zero, Real.sin_zero]
    ring
  have hX : azX 90 90 90 0 = -1 := by
    unfold azX
    rw [show ((90 : ℝ) - 90) = 0 by norm_num, radians_zero, radians_90, Real.sin_zero,
      Real.cos_zero, Real.sin_pi_div_two, Real.cos_pi_div_two]
    ring
  rw [hY, hX, arctan2_zero_neg_one, rad2deg_pi, fmod_180_360]

theorem az_90_90_0_90 : azimuth 90 90 0 90 = 0 := by
  unfold azimuth
  have hY : azY 90 90 0 90 = 0 := by
    unfold azY
    rw [radians_90, Real.cos_pi_div_two]
    ring
  have hX : azX 90 90 0 90 = 0 := by
    unfold azX
    rw [radians_90, Real.cos_pi_div_two]
    ring
  rw [hY, hX, arctan2_zero_zero, rad2deg_zero, fmod_0_360]

/-- Claim C9 counterexample: the coordinate pairs `A = (0°, 90°)` and
`B = (90°, 90°)` both represent the north pole but differ by `90°` in
longitude, so by the claim's own criterion ("coordinate differences at least
10⁻⁴ degrees") they do not coincide; yet for `p = (90°, 0°)` the code gives
`point_to_gcp(p, A, B) = 90` and `point_to_gcp(p, B, A) = 0 ≠ -90`, refuting
the claimed antisymmetry at this input. -/
theorem c9_counterexample :
    point_distance_to_great_circle_plane 90 0 0 90 90 90 = 90 ∧
      point_distance_to_great_circle_plane 90 0 90 90 0 90 = 0 ∧
      ¬(|(0 : ℝ) - 90| < 1 / 10000 ∧ |(90 : ℝ) - 90| < 1 / 10000) ∧
      (90 : ℝ) ≠ -0 := by
  have habs : |(0 : ℝ) - 90| = 90 := by
    rw [show ((0 : ℝ) - 90) = -90 by norm_num, abs_neg,
      abs_of_nonneg (by norm_num : (0:ℝ) ≤ 90)]
  have habs2 : |(90 : ℝ) - 0| = 90 := by
    rw [show ((90 : ℝ) - 0) = 90 by norm_num, abs_of_nonneg (by norm_num : (0:ℝ) ≤ 90)]
  refine ⟨?_, ?_, ?_, by norm_num⟩
  · unfold point_distance_to_great_circle_plane
    rw [if_neg (by rw [habs]; intro h; have := h.1; norm_num at this)]
    dsimp only
    rw [hav_0_90_90_0, az_0_90_90_0, az_0_90_90_90, radians_90, radians_zero, sub_zero,
      Real.sin_pi_div_two, one_mul, Real.arcsin_one, rad2deg_pi_div_two]
  · unfold point_distance_to_great_circle_plane
    rw [if_neg (by rw [habs2]; intro h; have := h.1; norm_num at this)]
    dsimp only
    rw [hav_90_90_90_0, az_90_90_90_0, az_90_90_0_90, radians_90, radians_180, radians_zero,
      sub_zero, Real.sin_pi_div_two, one_mul, Real.sin_pi, Real.arcsin_zero, rad2deg_zero]
  · rw [habs]
    intro h
    have := h.1
    norm_num at this
